import Mathlib

/-!
# Verification of the e-commerce cleaning + aggregation pipeline

Shallow embedding of `src/data_cleaner.py` (`clean_ecommerce_data`) and
`src/analysis.py` (the aggregation views) over in-memory tables modelled as
`List`s of row structures.

Modelling conventions:
* A pandas cell that may hold `NaN` / missing data is an `Option` field
  (`none` = missing/NaN).  pandas comparisons with `NaN` are `False`
  (`none` fails every `> 0` test), arithmetic with `NaN` is `NaN`
  (`Option.bind`/`map` propagation), `drop_duplicates` treats `NaN`s as
  equal (plain `Option` equality), and reductions `sum`/`mean`/`median`
  skip `NaN` (we aggregate over `filterMap`).
* Decimal values (`Price`, `Revenue`, margins) are modelled as exact
  rationals `ℚ`.
* `Quantity` is modelled as `Option Int` in raw rows (the data contract is a
  positive integer count; `fillna(1)` then `astype(int)` makes it a plain
  `Int` afterwards); `Region` similarly becomes a plain `String` after
  `fillna('Unknown')`.
* `datetime.now()` enters the pipeline only through `DaysSinceOrder`;
  we pass the clock explicitly as a function `daysSince : Date → Int`.
* `python`/`numpy` `round` (used by `round(x, 2)` / `.round(2)`) is
  round-half-to-even; `roundHE` below implements it on `ℚ`.
-/

set_option maxRecDepth 100000

namespace ECom

/-- Calendar date, enough structure for the date-part derived columns. -/
structure Date where
  year : Int
  month : Int
  day : Int
deriving DecidableEq, Repr

/-- One raw order-line record, the schema of `raw_ecommerce_data.csv`:
`OrderID, ProductID, ProductName, Category, Quantity, Price, Revenue,
OrderDate, CustomerID, Region`. -/
structure RawRow where
  orderId : String
  productId : String
  productName : String
  category : String
  quantity : Option Int
  price : Option ℚ
  revenue : Option ℚ
  orderDate : Date
  customerId : String
  region : Option String
deriving DecidableEq, Repr

/-- A row after deduplication + imputation + type normalization
(`clean_ecommerce_data` steps 1–3): quantity and region can no longer be
missing, price (and hence revenue) still can, when a whole category's
prices were missing. -/
structure MidRow where
  orderId : String
  productId : String
  productName : String
  category : String
  quantity : Int
  price : Option ℚ
  revenue : Option ℚ
  orderDate : Date
  customerId : String
  region : String
deriving DecidableEq, Repr

/-- A fully derived row (`clean_ecommerce_data` after step 4). -/
structure CleanRow where
  orderId : String
  productId : String
  productName : String
  category : String
  quantity : Int
  price : Option ℚ
  revenue : Option ℚ
  orderDate : Date
  customerId : String
  region : String
  totalSales : Option ℚ
  profitMargin : Option ℚ
  profit : Option ℚ
  year : Int
  month : Int
  quarter : Int
  monthName : String
  yearMonth : String
  daysSinceOrder : Int
deriving DecidableEq, Repr

/-! ## Generic list/number helpers mirroring pandas primitives -/

/-- Helper for `dedup`: drop elements already seen, first occurrences kept. -/
def dedupAux {α : Type} [DecidableEq α] (seen : List α) : List α → List α
  | [] => []
  | x :: xs => if x ∈ seen then dedupAux seen xs else x :: dedupAux (x :: seen) xs

/-- `df.drop_duplicates()` (also pandas `unique()`): keep the first
occurrence of each element, in order. -/
def dedup {α : Type} [DecidableEq α] (l : List α) : List α := dedupAux [] l

/-- Insert into a sorted list (structural recursion, kernel-reducible). -/
def insertLe {α : Type} (le : α → α → Bool) (x : α) : List α → List α
  | [] => [x]
  | y :: ys => if le x y then x :: y :: ys else y :: insertLe le x ys

/-- Insertion sort; used both for `sorted(values)` inside the median and for
the `sort_values` calls of the aggregation views (the claims we verify do
not depend on tie order, so a stable-vs-unstable distinction is moot). -/
def sortBy {α : Type} (le : α → α → Bool) : List α → List α
  | [] => []
  | x :: xs => insertLe le x (sortBy le xs)

/-- Mean of a list of rationals (`Series.mean` over the non-NaN values). -/
def meanQ (l : List ℚ) : ℚ := l.sum / (l.length : ℚ)

/-- Sample variance with `ddof = 1`, i.e. the square of pandas
`Series.std`.  Only consulted behind an `n ≥ 2` guard (for `n < 2`
pandas `std` is `NaN` and every comparison with it is false). -/
def sampleVar (l : List ℚ) : ℚ :=
  ((l.map (fun x => (x - meanQ l) ^ 2)).sum) / ((l.length : ℚ) - 1)

/-- pandas `Series.median` on the non-NaN values: middle of the sorted
list, or the average of the two middle elements. -/
def medianQ (l : List ℚ) : ℚ :=
  let s := sortBy (fun a b => decide (a ≤ b)) l
  let n := s.length
  if n % 2 = 1 then s.getD (n / 2) 0
  else (s.getD (n / 2 - 1) 0 + s.getD (n / 2) 0) / 2

/-- Median of a possibly-empty value list; the median of no values is `NaN`
(this is what `groupby('Category')['Price'].median()` yields for a group
whose prices are all missing). -/
def medianOpt (l : List ℚ) : Option ℚ :=
  if l.isEmpty then none else some (medianQ l)

/-- Round half to even to an integer (python `round`, `numpy.round`). -/
def roundHE (q : ℚ) : Int :=
  if q - (⌊q⌋ : ℚ) < 1/2 then ⌊q⌋
  else if 1/2 < q - (⌊q⌋ : ℚ) then ⌊q⌋ + 1
  else if ⌊q⌋ % 2 = 0 then ⌊q⌋ else ⌊q⌋ + 1

/-- `round(x, 2)`: round to two decimal places, half to even. -/
def round2 (q : ℚ) : ℚ := ((roundHE (100 * q) : ℚ)) / 100

/-- NaN-propagating product of two possibly-missing decimals. -/
def optMul (a b : Option ℚ) : Option ℚ := a.bind (fun x => b.map (fun y => x * y))

/-- `NaN > c` is false; `x > c` is the ordinary comparison. -/
def optPos (a : Option ℚ) : Bool :=
  match a with
  | none => false
  | some x => decide (0 < x)

/-- Sum of a column that skips missing values (pandas `Series.sum`). -/
def sumOpt (l : List (Option ℚ)) : ℚ := (l.filterMap id).sum

/-! ## The cleaning stage (`clean_ecommerce_data`, src/data_cleaner.py) -/

/-- The fixed `profit_margins` dict of `data_cleaner.py` lines 93–104.
`Series.map` on a key outside the dict yields `NaN`, hence `Option`. -/
def profitMargins (c : String) : Option ℚ :=
  if c = "Electronics" then some (25/100)
  else if c = "Clothing" then some (35/100)
  else if c = "Home & Garden" then some (30/100)
  else if c = "Books" then some (40/100)
  else if c = "Sports & Outdoors" then some (30/100)
  else if c = "Toys & Games" then some (35/100)
  else if c = "Health & Beauty" then some (40/100)
  else if c = "Automotive" then some (25/100)
  else if c = "Food & Beverages" then some (20/100)
  else if c = "Office Supplies" then some (30/100)
  else none

/-- `category_medians = df.groupby('Category')['Price'].median()`, computed
on the post-deduplication table (missing prices are excluded by the
`filterMap`; a group whose prices are all missing gets `NaN`). -/
def mediansOf (d : List RawRow) (c : String) : Option ℚ :=
  medianOpt ((d.filter (fun r => r.category == c)).filterMap (fun r => r.price))

/-- Step 2 (missing-value handling) and step 3 (type normalization) on one
row: price from the category median when missing, quantity `fillna(1)`,
region `fillna('Unknown')`, then the unconditional
`df['Revenue'] = df['Price'] * df['Quantity']` recomputation (line 61). -/
def imputePrice (medians : String → Option ℚ) (r : RawRow) : Option ℚ :=
  match r.price with
  | some v => some v
  | none => medians r.category

/-- See `imputePrice`; the row-level imputation + normalization. -/
def imputeRow (medians : String → Option ℚ) (r : RawRow) : MidRow :=
  let p : Option ℚ := imputePrice medians r
  let q : Int := r.quantity.getD 1
  { orderId := r.orderId
    productId := r.productId
    productName := r.productName
    category := r.category
    quantity := q
    price := p
    revenue := p.map (fun x => x * (q : ℚ))
    orderDate := r.orderDate
    customerId := r.customerId
    region := r.region.getD "Unknown" }

/-- `OrderDate.dt.strftime('%B')`. -/
def monthName (m : Int) : String :=
  if m = 1 then "January" else if m = 2 then "February"
  else if m = 3 then "March" else if m = 4 then "April"
  else if m = 5 then "May" else if m = 6 then "June"
  else if m = 7 then "July" else if m = 8 then "August"
  else if m = 9 then "September" else if m = 10 then "October"
  else if m = 11 then "November" else if m = 12 then "December" else ""

/-- `OrderDate.dt.to_period('M').astype(str)`: `"YYYY-MM"` with a
zero-padded month. -/
def yearMonthStr (d : Date) : String :=
  toString d.year ++ "-" ++ (if d.month < 10 then "0" else "") ++ toString d.month

/-- Step 4: derived columns (`TotalSales`, `ProfitMargin`, `Profit`, the
date parts, `DaysSinceOrder`).  The clock enters only through
`daysSince`. -/
def deriveRow (daysSince : Date → Int) (m : MidRow) : CleanRow :=
  { orderId := m.orderId
    productId := m.productId
    productName := m.productName
    category := m.category
    quantity := m.quantity
    price := m.price
    revenue := m.revenue
    orderDate := m.orderDate
    customerId := m.customerId
    region := m.region
    totalSales := m.revenue
    profitMargin := profitMargins m.category
    profit := optMul m.revenue (profitMargins m.category)
    year := m.orderDate.year
    month := m.orderDate.month
    quarter := (m.orderDate.month + 2) / 3
    monthName := monthName m.orderDate.month
    yearMonth := yearMonthStr m.orderDate
    daysSinceOrder := daysSince m.orderDate }

/-- Step 5a: `df = df[(df['Price'] > 0) & (df['Quantity'] > 0) & (df['Revenue'] > 0)]`. -/
def validRow (r : CleanRow) : Bool :=
  optPos r.price && decide (0 < r.quantity) && optPos r.revenue

/-- The prices of one category's rows in the current table
(`df[df['Category'] == category]['Price']`, NaN skipped by mean/std). -/
def catPrices (df : List CleanRow) (c : String) : List ℚ :=
  (df.filter (fun r => r.category == c)).filterMap (fun r => r.price)

/-- `price` lies outside `mean ± 3·std` of `prices`.  pandas `std` (ddof 1)
is `NaN` for fewer than two samples and comparisons with `NaN` are false,
hence the guard.  For `n ≥ 2`, `p > mean + 3·std ∨ p < mean - 3·std`
(with `std = √var ≥ 0`) holds iff `|p - mean| > 3·std`, iff
`(p - mean)² > 9·var`, which is exact on `ℚ`. -/
def priceOutlier (p : ℚ) (prices : List ℚ) : Bool :=
  if prices.length < 2 then false
  else decide ((p - meanQ prices) ^ 2 > 9 * sampleVar prices)

/-- A row's price is an outlier for a given price sample; a missing price
never compares true. -/
def rowOutlier (r : CleanRow) (prices : List ℚ) : Bool :=
  match r.price with
  | none => false
  | some p => priceOutlier p prices

/-- One iteration of the outlier loop (lines 134–146): statistics from the
current table's rows of category `c`, then drop that category's outliers.
(The source's `if len(outliers) > 0` guard only skips a no-op filter.) -/
def removeCatOutliers (df : List CleanRow) (c : String) : List CleanRow :=
  df.filter (fun r => !(r.category == c && rowOutlier r (catPrices df c)))

/-- Step 5b: `for category in df['Category'].unique(): ...` — fold the
per-category removal over the distinct categories in order of first
appearance. -/
def outlierStep (df : List CleanRow) : List CleanRow :=
  (dedup (df.map (fun r => r.category))).foldl removeCatOutliers df

/-- `clean_ecommerce_data` without the CSV I/O and printing: deduplicate,
impute (medians from the deduplicated table), normalize, derive, filter
invalid rows, remove per-category price outliers. -/
def clean (daysSince : Date → Int) (raw : List RawRow) : List CleanRow :=
  let d1 := dedup raw
  let d2 := d1.map (imputeRow (mediansOf d1))
  let d3 := d2.map (deriveRow daysSince)
  let d4 := d3.filter validRow
  outlierStep d4

/-! ## The aggregation stage (src/analysis.py) -/

/-- `Series.nunique()`. -/
def nuniq (l : List String) : Nat := (dedup l).length

/-- Result of `calculate_total_sales_revenue`. -/
structure TotalMetrics where
  totalRevenue : ℚ
  totalSales : ℚ
  totalProfit : ℚ
  totalOrders : Nat
  totalProductsSold : Int
  averageOrderValue : ℚ
deriving DecidableEq, Repr

/-- `calculate_total_sales_revenue` (analysis.py lines 25–58). -/
def totalSalesRevenue (df : List CleanRow) : TotalMetrics :=
  let totalRevenue := sumOpt (df.map (fun r => r.revenue))
  let totalSales := sumOpt (df.map (fun r => r.totalSales))
  let totalProfit := sumOpt (df.map (fun r => r.profit))
  let totalOrders := nuniq (df.map (fun r => r.orderId))
  let averageOrderValue := if totalOrders > 0 then totalRevenue / (totalOrders : ℚ) else 0
  { totalRevenue := round2 totalRevenue
    totalSales := round2 totalSales
    totalProfit := round2 totalProfit
    totalOrders := totalOrders
    totalProductsSold := (df.map (fun r => r.quantity)).sum
    averageOrderValue := round2 averageOrderValue }

/-- One group row of the best-seller views. -/
structure ProductAgg where
  productId : String
  productName : String
  category : String
  totalQuantity : Int
  totalRevenue : ℚ
  orderCount : Nat
deriving DecidableEq, Repr

/-- `groupby(['ProductID','ProductName','Category'])` aggregation. -/
def productAgg (df : List CleanRow) (k : String × String × String) : ProductAgg :=
  let rows := df.filter (fun r => (r.productId, r.productName, r.category) == k)
  { productId := k.1
    productName := k.2.1
    category := k.2.2
    totalQuantity := (rows.map (fun r => r.quantity)).sum
    totalRevenue := sumOpt (rows.map (fun r => r.revenue))
    orderCount := nuniq (rows.map (fun r => r.orderId)) }

/-- All product group rows, in first-appearance key order. -/
def productAggs (df : List CleanRow) : List ProductAgg :=
  (dedup (df.map (fun r => (r.productId, r.productName, r.category)))).map (productAgg df)

/-- `find_best_selling_products`, first component: sort by `TotalQuantity`
descending, `head(top_n)`. -/
def topByQuantity (df : List CleanRow) (n : Nat) : List ProductAgg :=
  (sortBy (fun a b => decide (b.totalQuantity ≤ a.totalQuantity)) (productAggs df)).take n

/-- `find_best_selling_products`, second component: sort by `TotalRevenue`
descending, `head(top_n)`. -/
def topByRevenue (df : List CleanRow) (n : Nat) : List ProductAgg :=
  (sortBy (fun a b => decide (b.totalRevenue ≤ a.totalRevenue)) (productAggs df)).take n

/-- One row of the category rollup view. -/
structure CatAgg where
  category : String
  totalRevenue : ℚ
  avgRevenue : ℚ
  totalQuantity : Int
  orderCount : Nat
  totalProfit : ℚ
  revenuePercentage : ℚ
deriving DecidableEq, Repr

/-- Per-category aggregation of `analyze_high_revenue_categories` before the
percentage column is added. -/
def catAggBase (df : List CleanRow) (c : String) : CatAgg :=
  let rows := df.filter (fun r => r.category == c)
  { category := c
    totalRevenue := sumOpt (rows.map (fun r => r.revenue))
    avgRevenue := meanQ (rows.filterMap (fun r => r.revenue))
    totalQuantity := (rows.map (fun r => r.quantity)).sum
    orderCount := nuniq (rows.map (fun r => r.orderId))
    totalProfit := sumOpt (rows.map (fun r => r.profit))
    revenuePercentage := 0 }

/-- `analyze_high_revenue_categories` (analysis.py lines 101–128):
`RevenuePercentage = (TotalRevenue / TotalRevenue.sum() * 100).round(2)`,
then sort by `TotalRevenue` descending. -/
def categoryRollup (df : List CleanRow) : List CatAgg :=
  let base := (dedup (df.map (fun r => r.category))).map (catAggBase df)
  let total := (base.map (fun e => e.totalRevenue)).sum
  let withPct := base.map (fun e =>
    { e with revenuePercentage := round2 (e.totalRevenue / total * 100) })
  sortBy (fun a b => decide (b.totalRevenue ≤ a.totalRevenue)) withPct

/-- One row of the monthly-trend view. -/
structure TrendAgg where
  yearMonth : String
  totalRevenue : ℚ
  totalQuantity : Int
  orderCount : Nat
  totalProfit : ℚ
deriving DecidableEq, Repr

/-- Monthly half of `analyze_sales_trends`: group by `YearMonth`, sort the
period key ascending. -/
def monthlyTrends (df : List CleanRow) : List TrendAgg :=
  let base := (dedup (df.map (fun r => r.yearMonth))).map (fun ym =>
    let rows := df.filter (fun r => r.yearMonth == ym)
    { yearMonth := ym
      totalRevenue := sumOpt (rows.map (fun r => r.revenue))
      totalQuantity := (rows.map (fun r => r.quantity)).sum
      orderCount := nuniq (rows.map (fun r => r.orderId))
      totalProfit := sumOpt (rows.map (fun r => r.profit)) : TrendAgg })
  sortBy (fun a b => decide (a.yearMonth ≤ b.yearMonth)) base

/-- One row of the quarterly-trend view. -/
structure QTrendAgg where
  year : Int
  quarter : Int
  totalRevenue : ℚ
  totalQuantity : Int
  orderCount : Nat
  totalProfit : ℚ
  yearQuarter : String
deriving DecidableEq, Repr

/-- Quarterly half of `analyze_sales_trends`: group by `(Year, Quarter)`,
composite label `"YYYY-Qn"`, sort keys ascending. -/
def quarterlyTrends (df : List CleanRow) : List QTrendAgg :=
  let base := (dedup (df.map (fun r => (r.year, r.quarter)))).map (fun k =>
    let rows := df.filter (fun r => (r.year, r.quarter) == k)
    { year := k.1
      quarter := k.2
      totalRevenue := sumOpt (rows.map (fun r => r.revenue))
      totalQuantity := (rows.map (fun r => r.quantity)).sum
      orderCount := nuniq (rows.map (fun r => r.orderId))
      totalProfit := sumOpt (rows.map (fun r => r.profit))
      yearQuarter := toString k.1 ++ "-Q" ++ toString k.2 : QTrendAgg })
  sortBy (fun a b =>
    decide (a.year < b.year) || (a.year == b.year && decide (a.quarter ≤ b.quarter))) base

/-- One row of the regional rollup view. -/
structure RegionAgg where
  region : String
  totalRevenue : ℚ
  totalQuantity : Int
  orderCount : Nat
  customerCount : Nat
  totalProfit : ℚ
  revenuePercentage : ℚ
deriving DecidableEq, Repr

/-- Per-region aggregation of `generate_regional_analysis` before the
percentage column is added. -/
def regionAggBase (df : List CleanRow) (g : String) : RegionAgg :=
  let rows := df.filter (fun r => r.region == g)
  { region := g
    totalRevenue := sumOpt (rows.map (fun r => r.revenue))
    totalQuantity := (rows.map (fun r => r.quantity)).sum
    orderCount := nuniq (rows.map (fun r => r.orderId))
    customerCount := nuniq (rows.map (fun r => r.customerId))
    totalProfit := sumOpt (rows.map (fun r => r.profit))
    revenuePercentage := 0 }

/-- `generate_regional_analysis` (analysis.py lines 221–248). -/
def regionalAnalysis (df : List CleanRow) : List RegionAgg :=
  let base := (dedup (df.map (fun r => r.region))).map (regionAggBase df)
  let total := (base.map (fun e => e.totalRevenue)).sum
  let withPct := base.map (fun e =>
    { e with revenuePercentage := round2 (e.totalRevenue / total * 100) })
  sortBy (fun a b => decide (b.totalRevenue ≤ a.totalRevenue)) withPct

/-- One row of an average-order-value view. -/
structure AovEntry where
  key : String
  averageOrderValue : ℚ
deriving DecidableEq, Repr

/-- The inner `lambda x: x.groupby('OrderID')['Revenue'].sum()` applied to a
category group: one per-order revenue total for each distinct order that has
a line of category `c`. -/
def perOrderCatSums (df : List CleanRow) (c : String) : List ℚ :=
  let x := df.filter (fun r => r.category == c)
  (dedup (x.map (fun r => r.orderId))).map
    (fun o => sumOpt ((x.filter (fun r => r.orderId == o)).map (fun r => r.revenue)))

/-- Same, for a region group. -/
def perOrderRegionSums (df : List CleanRow) (g : String) : List ℚ :=
  let x := df.filter (fun r => r.region == g)
  (dedup (x.map (fun r => r.orderId))).map
    (fun o => sumOpt ((x.filter (fun r => r.orderId == o)).map (fun r => r.revenue)))

/-- `calculate_average_order_value`, `Category AOV` component
(analysis.py lines 192–197) on a table with at least one category group:
per category, mean of the per-order sums, sorted descending.  This is the
successful branch of the view only — on zero groups the source raises
instead, see `aovByCategoryE`.  (The scalar `Overall AOV` of the same
function is not modelled; no claim is about it.) -/
def aovByCategory (df : List CleanRow) : List AovEntry :=
  sortBy (fun a b => decide (b.averageOrderValue ≤ a.averageOrderValue))
    ((dedup (df.map (fun r => r.category))).map
      (fun c => { key := c, averageOrderValue := meanQ (perOrderCatSums df c) }))

/-- `calculate_average_order_value`, `Region AOV` component
(analysis.py lines 200–205); successful branch only, see `aovByRegionE`. -/
def aovByRegion (df : List CleanRow) : List AovEntry :=
  sortBy (fun a b => decide (b.averageOrderValue ≤ a.averageOrderValue))
    ((dedup (df.map (fun r => r.region))).map
      (fun g => { key := g, averageOrderValue := meanQ (perOrderRegionSums df g) }))

/-- The full `Category AOV` computation including its failure boundary.
When the grouped frame has zero groups (i.e. the table is empty), pandas
`groupby('Category').apply(...)` returns an empty DataFrame that keeps all
18 non-group data columns instead of a scalar-per-group Series;
`.reset_index()` then has 19 columns, and the assignment
`category_aov.columns = ['Category', 'AverageOrderValue']` raises
`ValueError: Length mismatch` (analysis.py lines 192–196).  With at least
one (necessarily non-empty) group the lambda returns one scalar per group
and the view is `aovByCategory`. -/
def aovByCategoryE (df : List CleanRow) : Except String (List AovEntry) :=
  if (dedup (df.map (fun r => r.category))).isEmpty then
    Except.error "ValueError: Length mismatch"
  else
    Except.ok (aovByCategory df)

/-- The full `Region AOV` computation; the identical
apply/reset_index/columns-rename pattern at analysis.py lines 200–205 has
the same zero-groups failure. -/
def aovByRegionE (df : List CleanRow) : Except String (List AovEntry) :=
  if (dedup (df.map (fun r => r.region))).isEmpty then
    Except.error "ValueError: Length mismatch"
  else
    Except.ok (aovByRegion df)

/-! ## Spec-side comparison definitions (refinement targets)

These restate, in the spec's own words, the quantities the views are
claimed to compute; the claim theorems prove them equal to the code-side
definitions above. -/

/-- Spec side of C3: "for each category, compute per-order revenue totals
restricted to that category, then the mean of those totals". -/
def specAovByCategory (df : List CleanRow) (c : String) : ℚ :=
  meanQ ((dedup ((df.filter (fun r => r.category == c)).map (fun r => r.orderId))).map
    (fun o => sumOpt ((df.filter (fun r => r.category == c && r.orderId == o)).map
      (fun r => r.revenue))))

/-- Spec side of C3, keyed by region. -/
def specAovByRegion (df : List CleanRow) (g : String) : ℚ :=
  meanQ ((dedup ((df.filter (fun r => r.region == g)).map (fun r => r.orderId))).map
    (fun o => sumOpt ((df.filter (fun r => r.region == g && r.orderId == o)).map
      (fun r => r.revenue))))

/-- Spec side of C7: "the median price of rows sharing the same category
... excluding still-missing values". -/
def specMedianPrice (d : List RawRow) (c : String) : Option ℚ :=
  medianOpt (d.filterMap (fun r => if r.category = c then r.price else none))

/-! ## Re-running the cleaning stage on its own output (C8)

`clean` consumes the raw-table columns; re-running it on the cleaned CSV
reads those same base columns back (derived columns are overwritten by the
second run, and for duplicate detection they are functions of the base
columns and the shared run timestamp, so base-column equality coincides
with whole-row equality on a single run's output). -/

/-- The raw-table image of a cleaned row. -/
def toRaw (r : CleanRow) : RawRow :=
  { orderId := r.orderId
    productId := r.productId
    productName := r.productName
    category := r.category
    quantity := some r.quantity
    price := r.price
    revenue := r.revenue
    orderDate := r.orderDate
    customerId := r.customerId
    region := some r.region }

/-! ## Concrete example data for the witnesses and counterexamples -/

/-- Fixed order date used by the examples. -/
def dEx : Date := ⟨2024, 1, 15⟩

/-- A clock: "now" is the order day. -/
def dsZero : Date → Int := fun _ => 0

/-- A later clock, for re-running the cleaning stage. -/
def dsOne : Date → Int := fun _ => 1

/-- Raw-row template.  The raw `Revenue` column is deliberately set to a
wrong value (999) so the examples witness that cleaning recomputes it. -/
def mkRawRow (oid cat : String) (q : Option Int) (p : Option ℚ) : RawRow :=
  { orderId := oid
    productId := "P1"
    productName := "Widget"
    category := cat
    quantity := q
    price := p
    revenue := some 999
    orderDate := dEx
    customerId := "C1"
    region := some "Europe" }

/-- Already-derived row template (for feeding the aggregation views and the
outlier step directly). -/
def mkCleanRow (oid cat : String) (q : Int) (p : ℚ) : CleanRow :=
  deriveRow dsZero
    { orderId := oid
      productId := "P1"
      productName := "Widget"
      category := cat
      quantity := q
      price := some p
      revenue := some (p * (q : ℚ))
      orderDate := dEx
      customerId := "C1"
      region := "Europe" }

/-- C2: a single valid row of the unknown category "Gadgets". -/
def rawGadget : List RawRow := [mkRawRow "O1" "Gadgets" (some 1) (some 5)]

/-- C1 witness input. -/
def rawW1 : List RawRow := [mkRawRow "O1" "Books" (some 2) (some 10)]

/-- The cleaned row `clean dsZero rawW1` produces. -/
def cw1 : CleanRow := deriveRow dsZero (imputeRow (mediansOf (dedup rawW1)) (mkRawRow "O1" "Books" (some 2) (some 10)))

/-- C3: the spec's two-row Books example (prices 10×2 and 30×1). -/
def exBooks : List CleanRow := [mkCleanRow "O1" "Books" 2 10, mkCleanRow "O2" "Books" 1 30]

/-- C3: a mixed table where the naive "category revenue / global order
count" computation differs from the per-order-sums mean. -/
def exMixed : List CleanRow :=
  [mkCleanRow "O1" "Books" 2 10, mkCleanRow "O1" "Electronics" 1 100,
   mkCleanRow "O2" "Books" 1 30, mkCleanRow "O3" "Electronics" 1 40]

/-- C5 witness table: category "A" holds ten prices 10 and one extreme
price 1000 (an actual > 3·std outlier for a sample of 11), category "B" is
untouched. -/
def df5 : List CleanRow :=
  (List.range 10).map (fun i => mkCleanRow (toString i) "A" 1 10)
    ++ [mkCleanRow "X" "A" 1 1000, mkCleanRow "Y" "B" 1 10, mkCleanRow "Z" "B" 1 12]

/-- C6 witness table: one single-row category next to a populated one. -/
def df6 : List CleanRow :=
  [mkCleanRow "O1" "Solo" 1 7, mkCleanRow "O2" "B" 1 10, mkCleanRow "O3" "B" 1 12]

/-- C7 example: a duplicate pair (so the dedup-before-median is visible:
the Books median over the deduplicated prices [4, 10] is 7, not the
pre-dedup median 4) and a missing price. -/
def rawC7ex : List RawRow :=
  [mkRawRow "O1" "Books" (some 2) (some 4), mkRawRow "O1" "Books" (some 2) (some 4),
   mkRawRow "O2" "Books" (some 1) (some 10), mkRawRow "O3" "Books" (some 1) none]

/-- C8 counterexample input: two rows identical except that the second one
is missing its price; imputation fills it with the first row's price,
making the cleaned rows exact duplicates. -/
def rawIdem : List RawRow :=
  [mkRawRow "O1" "Books" (some 2) (some 10), mkRawRow "O1" "Books" (some 2) none]

/-- C8 witness input (nothing to impute, nothing duplicated). -/
def rawIdW : List RawRow := [mkRawRow "O1" "Books" (some 2) (some 10)]

/-- C9 witness table. -/
def df9 : List CleanRow :=
  [mkCleanRow "O1" "Books" 1 10, mkCleanRow "O2" "Clothing" 1 20]

/-- C10 witness input: category "Ghost" has only missing prices. -/
def rawGhost : List RawRow :=
  [mkRawRow "O1" "Ghost" (some 1) none, mkRawRow "O2" "Ghost" (some 2) none,
   mkRawRow "O3" "Books" (some 1) (some 10)]

/-! ## Helper lemmas about the list primitives -/

theorem mem_dedupAux {α : Type} [DecidableEq α] {a : α} :
    ∀ (l seen : List α), a ∈ dedupAux seen l ↔ a ∈ l ∧ a ∉ seen := by
  intro l
  induction l with
  | nil => intro seen; simp [dedupAux]
  | cons x xs ih =>
    intro seen
    simp only [dedupAux]
    by_cases hx : x ∈ seen
    · rw [if_pos hx, ih seen]
      constructor
      · rintro ⟨h1, h2⟩
        exact ⟨List.mem_cons_of_mem _ h1, h2⟩
      · rintro ⟨h1, h2⟩
        rcases List.mem_cons.1 h1 with rfl | h1
        · exact absurd hx h2
        · exact ⟨h1, h2⟩
    · rw [if_neg hx]
      constructor
      · intro h
        rcases List.mem_cons.1 h with rfl | h
        · exact ⟨List.mem_cons_self _ _, hx⟩
        · rcases (ih (x :: seen)).1 h with ⟨h1, h2⟩
          exact ⟨List.mem_cons_of_mem _ h1, fun hs => h2 (List.mem_cons_of_mem _ hs)⟩
      · rintro ⟨h1, h2⟩
        rcases List.mem_cons.1 h1 with rfl | h1
        · exact List.mem_cons_self _ _
        · by_cases hax : a = x
          · subst hax; exact List.mem_cons_self _ _
          · refine List.mem_cons_of_mem _ ((ih (x :: seen)).2 ⟨h1, ?_⟩)
            intro hs
            rcases List.mem_cons.1 hs with h | h
            · exact hax h
            · exact h2 h

theorem mem_dedup {α : Type} [DecidableEq α] {a : α} {l : List α} :
    a ∈ dedup l ↔ a ∈ l := by
  simp [dedup, mem_dedupAux l []]

theorem nodup_dedupAux {α : Type} [DecidableEq α] :
    ∀ (l seen : List α), (dedupAux seen l).Nodup := by
  intro l
  induction l with
  | nil => intro seen; simp [dedupAux]
  | cons x xs ih =>
    intro seen
    simp only [dedupAux]
    by_cases hx : x ∈ seen
    · rw [if_pos hx]; exact ih seen
    · rw [if_neg hx]
      refine List.nodup_cons.2 ⟨?_, ih (x :: seen)⟩
      intro hmem
      exact ((mem_dedupAux _ _).1 hmem).2 (List.mem_cons_self _ _)

theorem nodup_dedup {α : Type} [DecidableEq α] (l : List α) : (dedup l).Nodup :=
  nodup_dedupAux l []

theorem dedupAux_eq_self {α : Type} [DecidableEq α] :
    ∀ {l seen : List α}, l.Nodup → (∀ a ∈ l, a ∉ seen) → dedupAux seen l = l := by
  intro l
  induction l with
  | nil => intro seen _ _; rfl
  | cons x xs ih =>
    intro seen hnd hdisj
    have hx : x ∉ seen := hdisj x (List.mem_cons_self _ _)
    have hxs : xs.Nodup := (List.nodup_cons.1 hnd).2
    have hxxs : x ∉ xs := (List.nodup_cons.1 hnd).1
    simp only [dedupAux, if_neg hx]
    refine congrArg (x :: ·) (ih hxs ?_)
    intro a ha
    simp only [List.mem_cons]
    rintro (rfl | hs)
    · exact hxxs ha
    · exact hdisj a (List.mem_cons_of_mem _ ha) hs

theorem dedup_eq_self {α : Type} [DecidableEq α] {l : List α} (h : l.Nodup) :
    dedup l = l :=
  dedupAux_eq_self h (by simp)

theorem insertLe_perm {α : Type} (le : α → α → Bool) (x : α) :
    ∀ l : List α, (insertLe le x l).Perm (x :: l) := by
  intro l
  induction l with
  | nil => simp [insertLe]
  | cons y ys ih =>
    simp only [insertLe]
    by_cases h : le x y
    · rw [if_pos h]
    · rw [if_neg h]
      exact (ih.cons y).trans (List.Perm.swap x y ys)

theorem sortBy_perm {α : Type} (le : α → α → Bool) :
    ∀ l : List α, (sortBy le l).Perm l := by
  intro l
  induction l with
  | nil => simp [sortBy]
  | cons x xs ih =>
    exact (insertLe_perm le x (sortBy le xs)).trans (ih.cons x)

/-- Splitting a mapped sum along a boolean predicate. -/
theorem sum_map_filter_split {α : Type} (p : α → Bool) (f : α → ℚ) :
    ∀ l : List α,
      ((l.filter p).map f).sum + ((l.filter (fun a => !(p a))).map f).sum
        = (l.map f).sum := by
  intro l
  induction l with
  | nil => simp
  | cons x xs ih =>
    cases hp : p x with
    | true =>
      rw [List.filter_cons_of_pos (by simp [hp]), List.filter_cons_of_neg (by simp [hp])]
      simp only [List.map_cons, List.sum_cons]
      rw [add_assoc, ih]
    | false =>
      rw [List.filter_cons_of_neg (by simp [hp]), List.filter_cons_of_pos (by simp [hp])]
      simp only [List.map_cons, List.sum_cons]
      rw [← add_assoc, add_comm (((xs.filter p).map f).sum) (f x), add_assoc, ih]

/-- Grouping partition: summing a per-group aggregate over a duplicate-free
list of keys covering the table recovers the global sum. -/
theorem sum_grouped {α K : Type} [BEq K] [LawfulBEq K] (key : α → K) (f : α → ℚ) :
    ∀ (keys : List K) (df : List α), keys.Nodup → (∀ r ∈ df, key r ∈ keys) →
      (keys.map (fun c => ((df.filter (fun r => key r == c)).map f).sum)).sum
        = (df.map f).sum := by
  intro keys
  induction keys with
  | nil =>
    intro df _ hcov
    have hdf : df = [] := by
      cases df with
      | nil => rfl
      | cons r rs => exact absurd (hcov r (List.mem_cons_self _ _)) (by simp)
    simp [hdf]
  | cons c keys ih =>
    intro df hnd hcov
    have hnd' : keys.Nodup := (List.nodup_cons.1 hnd).2
    have hcne : c ∉ keys := (List.nodup_cons.1 hnd).1
    have hsplit := sum_map_filter_split (fun r => key r == c) f df
    set df' := df.filter (fun r => !(key r == c)) with hdf'
    have hcov' : ∀ r ∈ df', key r ∈ keys := by
      intro r hr
      have hr' := List.mem_filter.1 hr
      have hne : ¬(key r = c) := by simpa using hr'.2
      rcases List.mem_cons.1 (hcov r hr'.1) with h | h
      · exact absurd h hne
      · exact h
    have hterm : ∀ c' ∈ keys,
        df'.filter (fun r => key r == c') = df.filter (fun r => key r == c') := by
      intro c' hc'
      have hne : c' ≠ c := fun h => hcne (h ▸ hc')
      rw [hdf', List.filter_filter]
      refine List.filter_congr ?_
      intro r _
      by_cases h : key r = c'
      · have hnc : ¬(key r = c) := fun hc => hne (by rw [← h, hc])
        have hb : (key r == c) = false := by simp [hnc]
        have hb' : (key r == c') = true := by simp [h]
        simp [hb, hb']
      · have hb' : (key r == c') = false := by simp [h]
        simp [hb']
    have hmapeq : keys.map (fun c' => ((df'.filter (fun r => key r == c')).map f).sum)
        = keys.map (fun c' => ((df.filter (fun r => key r == c')).map f).sum) := by
      apply List.map_congr_left
      intro c' hc'
      rw [hterm c' hc']
    simp only [List.map_cons, List.sum_cons]
    rw [← hmapeq, ih df' hnd' hcov']
    exact hsplit

/-! ## The outlier loop is per-category independent -/

/-- Filtering with a predicate that keeps every row of category `c` does not
change the price sample of category `c`. -/
theorem catPrices_filter_stable (df : List CleanRow) (p : CleanRow → Bool) (c : String)
    (hp : ∀ r ∈ df, r.category = c → p r = true) :
    catPrices (df.filter p) c = catPrices df c := by
  unfold catPrices
  rw [List.filter_filter]
  congr 1
  refine List.filter_congr ?_
  intro r hr
  by_cases h : r.category = c
  · simp [h, hp r hr h]
  · have hb : (r.category == c) = false := by simp [h]
    simp [hb]

/-- Removing category `c`'s outliers leaves every other category's price
sample untouched. -/
theorem catPrices_removeCat_ne (df : List CleanRow) (c c' : String) (h : c' ≠ c) :
    catPrices (df.filter (fun r => !(r.category == c && rowOutlier r (catPrices df c)))) c'
      = catPrices df c' := by
  refine catPrices_filter_stable df _ c' ?_
  intro r _ hr
  have hb : (r.category == c) = false := by simp [hr, h]
  simp [hb]

/-- The progressive outlier loop over any duplicate-free category list
equals one simultaneous filter whose per-category statistics all come from
the original table: the loop is order-independent and per-category
independent. -/
theorem foldl_removeCatOutliers (cats : List String) :
    ∀ df : List CleanRow, cats.Nodup →
      cats.foldl removeCatOutliers df
        = df.filter (fun r =>
            !(cats.contains r.category && rowOutlier r (catPrices df r.category))) := by
  induction cats with
  | nil =>
    intro df _
    simp
  | cons c cats ih =>
    intro df hnd
    have hnd' : cats.Nodup := (List.nodup_cons.1 hnd).2
    have hcne : c ∉ cats := (List.nodup_cons.1 hnd).1
    rw [List.foldl_cons, ih (removeCatOutliers df c) hnd']
    simp only [removeCatOutliers]
    rw [List.filter_filter]
    refine List.filter_congr ?_
    intro r hr
    by_cases h : r.category = c
    · have h1 : cats.contains r.category = false := by
        rw [h]
        simpa using hcne
      have h2 : (r.category == c) = true := by simp [h]
      have h3 : (c :: cats).contains r.category = true := by simp [h]
      simp [h1, h2, h3, h]
      intro _
      exact Or.inl hcne
    · have h2 : (r.category == c) = false := by simp [h]
      rw [catPrices_removeCat_ne df c r.category h]
      simp [h2, h]

/-- `outlierStep` in closed form: a row is dropped exactly when its price is
an outlier for its own category, statistics taken over the whole input
table. -/
theorem outlierStep_eq_filter (df : List CleanRow) :
    outlierStep df = df.filter (fun r => !(rowOutlier r (catPrices df r.category))) := by
  unfold outlierStep
  rw [foldl_removeCatOutliers _ df (nodup_dedup _)]
  refine List.filter_congr ?_
  intro r hr
  have hmem : r.category ∈ dedup (df.map (fun r => r.category)) :=
    mem_dedup.2 (List.mem_map_of_mem _ hr)
  simp [hmem]

/-! ## Rounding error bounds -/

theorem abs_roundHE_sub (q : ℚ) : |(roundHE q : ℚ) - q| ≤ 1/2 := by
  have h0 : ((⌊q⌋ : ℤ) : ℚ) ≤ q := Int.floor_le q
  have h1 : q < ((⌊q⌋ : ℤ) : ℚ) + 1 := Int.lt_floor_add_one q
  unfold roundHE
  by_cases hlt : q - ((⌊q⌋ : ℤ) : ℚ) < 1/2
  · rw [if_pos hlt, abs_le]
    constructor <;> linarith
  · rw [if_neg hlt]
    by_cases hgt : 1/2 < q - ((⌊q⌋ : ℤ) : ℚ)
    · rw [if_pos hgt, abs_le]
      push_cast
      constructor <;> linarith
    · rw [if_neg hgt]
      have heq : q - ((⌊q⌋ : ℤ) : ℚ) = 1/2 := le_antisymm (not_lt.1 hgt) (not_lt.1 hlt)
      by_cases hev : (⌊q⌋ : ℤ) % 2 = 0
      · rw [if_pos hev, abs_le]
        constructor <;> linarith
      · rw [if_neg hev, abs_le]
        push_cast
        constructor <;> linarith

theorem abs_round2_sub (q : ℚ) : |round2 q - q| ≤ 1/200 := by
  unfold round2
  have heq : ((roundHE (100*q) : ℤ) : ℚ)/100 - q = (((roundHE (100*q) : ℤ) : ℚ) - 100*q)/100 := by
    ring
  rw [heq, abs_div]
  have h100 : |(100:ℚ)| = 100 := by norm_num
  rw [h100]
  linarith [abs_roundHE_sub (100*q)]

/-- Summing pointwise-close functions keeps the sums within `length · ε`. -/
theorem abs_sum_sub_sum_le {α : Type} (f g : α → ℚ) (ε : ℚ) :
    ∀ l : List α, (∀ a ∈ l, |f a - g a| ≤ ε) →
      |(l.map f).sum - (l.map g).sum| ≤ (l.length : ℚ) * ε := by
  intro l
  induction l with
  | nil => intro _; simp
  | cons x xs ih =>
    intro h
    have hx := h x (List.mem_cons_self _ _)
    have hxs := ih (fun a ha => h a (List.mem_cons_of_mem _ ha))
    simp only [List.map_cons, List.sum_cons, List.length_cons]
    have hsplit : f x + (xs.map f).sum - (g x + (xs.map g).sum)
        = (f x - g x) + ((xs.map f).sum - (xs.map g).sum) := by ring
    rw [hsplit]
    have htri := abs_add (f x - g x) ((xs.map f).sum - (xs.map g).sum)
    have hcast : ((xs.length + 1 : ℕ) : ℚ) = (xs.length : ℚ) + 1 := by push_cast; ring
    rw [hcast]
    calc |(f x - g x) + ((xs.map f).sum - (xs.map g).sum)|
        ≤ |f x - g x| + |(xs.map f).sum - (xs.map g).sum| := htri
      _ ≤ ε + (xs.length : ℚ) * ε := add_le_add hx hxs
      _ = ((xs.length : ℚ) + 1) * ε := by ring

/-! ## Decomposing membership in the cleaned table -/

theorem optPos_iff {a : Option ℚ} : optPos a = true ↔ ∃ x, a = some x ∧ 0 < x := by
  cases a <;> simp [optPos]

/-- Every cleaned row is the derivation of an imputed deduplicated raw row
and passed the validity filter. -/
theorem mem_clean_decompose {ds : Date → Int} {raw : List RawRow} {r : CleanRow}
    (h : r ∈ clean ds raw) :
    ∃ r0 ∈ dedup raw,
      r = deriveRow ds (imputeRow (mediansOf (dedup raw)) r0) ∧ validRow r = true := by
  simp only [clean] at h
  rw [outlierStep_eq_filter] at h
  have h4 := (List.mem_filter.1 h).1
  have hv := (List.mem_filter.1 h4).2
  have h3 := (List.mem_filter.1 h4).1
  rcases List.mem_map.1 h3 with ⟨m, hm, hrm⟩
  rcases List.mem_map.1 hm with ⟨r0, hr0, hmr⟩
  refine ⟨r0, hr0, ?_, hv⟩
  rw [← hrm, ← hmr]

/-! ## More helpers: validity, medians, AOV refinement -/

theorem validRow_parts {r : CleanRow} (h : validRow r = true) :
    optPos r.price = true ∧ 0 < r.quantity ∧ optPos r.revenue = true := by
  unfold validRow at h
  rw [Bool.and_eq_true, Bool.and_eq_true] at h
  exact ⟨h.1.1, by simpa using h.1.2, h.2⟩

/-- The code's per-category median (filter, then take present prices)
equals the spec's (take the present prices of rows of that category). -/
theorem mediansOf_eq_spec (d : List RawRow) (c : String) :
    mediansOf d c = specMedianPrice d c := by
  unfold mediansOf specMedianPrice
  congr 1
  induction d with
  | nil => rfl
  | cons r rs ih =>
    by_cases h : r.category = c
    · have hb : (r.category == c) = true := by simp [h]
      simp only [List.filter_cons, hb, if_true]
      cases hp : r.price <;>
        simp [List.filterMap_cons, h, hp, ih]
    · have hb : (r.category == c) = false := by simp [h]
      simp only [List.filter_cons, hb, if_false]
      simp [List.filterMap_cons, h, ih]

/-- The nested `groupby('Category') … groupby('OrderID')` means of the AOV
view equal the spec's single-pass formulation. -/
theorem perOrderCatSums_eq_spec (df : List CleanRow) (c : String) :
    meanQ (perOrderCatSums df c) = specAovByCategory df c := by
  unfold perOrderCatSums specAovByCategory
  congr 2
  apply List.map_congr_left
  intro o ho
  congr 2
  rw [List.filter_filter]
  refine List.filter_congr ?_
  intro r _
  exact Bool.and_comm _ _

/-- Region analogue of `perOrderCatSums_eq_spec`. -/
theorem perOrderRegionSums_eq_spec (df : List CleanRow) (g : String) :
    meanQ (perOrderRegionSums df g) = specAovByRegion df g := by
  unfold perOrderRegionSums specAovByRegion
  congr 2
  apply List.map_congr_left
  intro o ho
  congr 2
  rw [List.filter_filter]
  refine List.filter_congr ?_
  intro r _
  exact Bool.and_comm _ _

/-! ## Helpers for re-cleaning (C8) and percentage sums (C9) -/

/-- When every entry is present, the NaN-skipping sum is the plain sum. -/
theorem sumOpt_all_some :
    ∀ l : List (Option ℚ), (∀ a ∈ l, a.isSome) →
      sumOpt l = (l.map (fun a => a.getD 0)).sum := by
  intro l
  induction l with
  | nil => intro _; rfl
  | cons x xs ih =>
    intro h
    have hx := h x (List.mem_cons_self _ _)
    cases x with
    | none => simp at hx
    | some v =>
      have hxs := ih (fun a ha => h a (List.mem_cons_of_mem _ ha))
      simp only [sumOpt, List.filterMap_cons] at hxs ⊢
      simp [hxs]

/-- Each share-percentage list sums to within `n/200` of 100. -/
theorem sum_round2_shares (vals : List ℚ) (hT : vals.sum ≠ 0) :
    |(vals.map (fun v => round2 (v / vals.sum * 100))).sum - 100|
      ≤ (vals.length : ℚ) * (1/200) := by
  have hexact : (vals.map (fun v => v / vals.sum * 100)).sum = 100 := by
    have h1 : (vals.map (fun v => v / vals.sum * 100)).sum
        = (vals.map (fun v => v * (100 / vals.sum))).sum := by
      congr 1
      apply List.map_congr_left
      intro v _
      ring
    rw [h1]
    have h2 := List.sum_map_mul_right vals (fun v => v) (100 / vals.sum)
    simp only at h2
    rw [h2]
    have h3 : vals.map (fun v => v) = vals := List.map_id' vals
    rw [h3]
    field_simp
  have hb := abs_sum_sub_sum_le (fun v => round2 (v / vals.sum * 100))
    (fun v => v / vals.sum * 100) (1/200) vals
    (fun v _ => abs_round2_sub (v / vals.sum * 100))
  rw [hexact] at hb
  exact hb

/-- Bumping `DaysSinceOrder` does not change any category's price sample. -/
theorem catPrices_map_upd (C : List CleanRow) (ds2 : Date → Int) (c : String) :
    catPrices (C.map (fun r => { r with daysSinceOrder := ds2 r.orderDate })) c
      = catPrices C c := by
  unfold catPrices
  rw [List.filter_map, List.filterMap_map]
  rfl

/-- Re-deriving an already-cleaned row (with any median table and any
clock) reproduces it, except for the recomputed `DaysSinceOrder`. -/
theorem imputePrice_of_some (med : String → Option ℚ) (r : RawRow) (p : ℚ)
    (h : r.price = some p) : imputePrice med r = some p := by
  unfold imputePrice
  rw [h]

/-- Re-deriving an already-cleaned row (with any median table and any
clock) reproduces it, except for the recomputed `DaysSinceOrder`. -/
theorem reclean_row (ds ds2 : Date → Int) (raw : List RawRow) (r : CleanRow)
    (h : r ∈ clean ds raw) (med : String → Option ℚ) :
    deriveRow ds2 (imputeRow med (toRaw r))
      = { r with daysSinceOrder := ds2 r.orderDate } := by
  rcases mem_clean_decompose h with ⟨r0, _, hre, hv⟩
  obtain ⟨p, hp, -⟩ := optPos_iff.1 (validRow_parts hv).1
  have hp' : imputePrice (mediansOf (dedup raw)) r0 = some p := by
    rw [hre] at hp
    simpa [deriveRow, imputeRow] using hp
  subst hre
  simp only [toRaw, imputeRow, deriveRow]
  rw [imputePrice_of_some _ _ p (by simpa using hp')]
  simp [optMul, hp']

/-! ## Claim theorems -/

/-- C5: the per-category outlier filter is independent across categories.
For every duplicate-free category list, the progressive loop of
`data_cleaner.py` lines 134–146 equals one simultaneous filter in which
every category's price statistics come from that category's own rows of
the original table, a row being dropped exactly when its price lies
outside its own category's `mean ± 3·std` band (stated in the equivalent
squared form, see `priceOutlier`); the right-hand side does not mention
the processing order, so removing an outlier in one category never changes
another category's drops, and `outlierStep` (the loop over
`df['Category'].unique()`) has the same closed form. -/
theorem c5_outlier_filter_independent (df : List CleanRow) (cats : List String)
    (hnd : cats.Nodup) :
    cats.foldl removeCatOutliers df
        = df.filter (fun r =>
            !(cats.contains r.category && rowOutlier r (catPrices df r.category)))
      ∧ outlierStep df
        = df.filter (fun r => !(rowOutlier r (catPrices df r.category))) :=
  ⟨foldl_removeCatOutliers cats df hnd, outlierStep_eq_filter df⟩

/-- C5 witness: on a concrete table (category "A" = ten prices 10 and one
price 1000, category "B" = prices 10 and 12) the loop in either category
order equals the simultaneous filter, which drops exactly the 1000 row. -/
theorem c5_witness :
    ["A", "B"].foldl removeCatOutliers df5
        = df5.filter (fun r =>
            !((["A", "B"] : List String).contains r.category
                && rowOutlier r (catPrices df5 r.category))) :=
  (c5_outlier_filter_independent df5 ["A", "B"] (by decide)).1

/-- C6: a category with fewer than two rows at the outlier-filtering step
loses no rows there: its sample standard deviation is undefined (`NaN`,
guarded in the embedding by the `length < 2` test, under which every
`NaN` comparison is false), so the filter keeps that category's rows
unchanged and no failure occurs (the step stays total). -/
theorem c6_small_category_not_dropped (df : List CleanRow) (c : String)
    (h : (df.filter (fun r => r.category == c)).length < 2) :
    (outlierStep df).filter (fun r => r.category == c)
      = df.filter (fun r => r.category == c) := by
  rw [outlierStep_eq_filter, List.filter_filter]
  refine List.filter_congr ?_
  intro r hr
  by_cases hc : r.category = c
  · have hlen : (catPrices df c).length < 2 :=
      lt_of_le_of_lt (List.length_filterMap_le _ _) h
    have hout : rowOutlier r (catPrices df c) = false := by
      cases hp : r.price with
      | none => simp [rowOutlier, hp]
      | some p => simp [rowOutlier, hp, priceOutlier, hlen]
    simp [hc, hout]
  · have hb : (r.category == c) = false := by simp [hc]
    simp [hb]

/-- C6 witness: the single-row category "Solo" of `df6` survives the
outlier step untouched. -/
theorem c6_witness :
    (outlierStep df6).filter (fun r => r.category == "Solo")
      = df6.filter (fun r => r.category == "Solo") :=
  c6_small_category_not_dropped df6 "Solo" (by with_unfolding_all decide)

/-- C1: invariants of the cleaned table.  Every retained row has a present
(non-null) positive price, positive quantity, and a present positive
revenue that equals price · quantity exactly.  (Non-nullness of quantity
and region after `fillna(1)` / `fillna('Unknown')` is reflected in the
`CleanRow` type itself, whose `quantity` and `region` fields are not
optional.) -/
theorem c1_cleaned_invariants (ds : Date → Int) (raw : List RawRow) (r : CleanRow)
    (h : r ∈ clean ds raw) :
    (∃ p, r.price = some p ∧ 0 < p) ∧ 0 < r.quantity
      ∧ (∃ v, r.revenue = some v ∧ 0 < v)
      ∧ r.revenue = r.price.map (fun p => p * (r.quantity : ℚ)) := by
  rcases mem_clean_decompose h with ⟨r0, hr0, hre, hv⟩
  obtain ⟨hp, hq, hrev⟩ := validRow_parts hv
  refine ⟨optPos_iff.1 hp, hq, optPos_iff.1 hrev, ?_⟩
  subst hre
  simp [deriveRow, imputeRow]

/-- C1 witness: the invariants hold for the cleaned row produced from
`rawW1` (Books order, price 10, quantity 2). -/
theorem c1_witness :
    cw1 ∈ clean dsZero rawW1
      ∧ ((∃ p, cw1.price = some p ∧ 0 < p) ∧ 0 < cw1.quantity
          ∧ (∃ v, cw1.revenue = some v ∧ 0 < v)
          ∧ cw1.revenue = cw1.price.map (fun p => p * (cw1.quantity : ℚ))) :=
  ⟨by with_unfolding_all decide,
   c1_cleaned_invariants dsZero rawW1 cw1 (by with_unfolding_all decide)⟩

/-- C2 (code bug): contrary to the claim, the cleaning stage raises no
`UnknownCategory` error.  On the failing input `rawGadget` (a valid row of
the unknown category "Gadgets"), `df['Category'].map(profit_margins)`
silently yields `NaN` (modelled as `none`): the row is retained with
`ProfitMargin = NaN` and `Profit = NaN`, and the run completes normally. -/
theorem c2_unknown_category_is_silent_nan :
    (clean dsZero rawGadget).map (fun r => (r.category, r.profitMargin, r.profit))
        = [("Gadgets", none, none)]
      ∧ profitMargins "Gadgets" = none := by
  with_unfolding_all decide

/-- C4 (code bug): the claim — no view crashes on the empty cleaned table
— states the spec's intent (section 4.2), but `calculate_average_order_value`
violates it.  Evaluating the views at the failing input (the empty table):
the total-metrics view does return all-zero sums, order count 0 and
average order value 0 (the `if total_orders > 0` guard avoids the
division), and the best-seller, rollup and trend views do return empty
result sets — but the two AOV views raise `ValueError` instead of
returning empty result sets, because `groupby.apply` over zero groups
yields an empty DataFrame with all 18 data columns and the two-name
column assignment fails (see `aovByCategoryE`/`aovByRegionE`). -/
theorem c4_empty_table_aov_crashes :
    totalSalesRevenue []
        = { totalRevenue := 0, totalSales := 0, totalProfit := 0, totalOrders := 0,
            totalProductsSold := 0, averageOrderValue := 0 }
      ∧ topByQuantity [] 10 = [] ∧ topByRevenue [] 10 = []
      ∧ categoryRollup [] = [] ∧ monthlyTrends [] = []
      ∧ quarterlyTrends [] = [] ∧ regionalAnalysis [] = []
      ∧ aovByCategoryE [] = Except.error "ValueError: Length mismatch"
      ∧ aovByRegionE [] = Except.error "ValueError: Length mismatch" := by
  refine ⟨?_, ?_, ?_, ?_, ?_, ?_, ?_, rfl, rfl⟩ <;> with_unfolding_all decide

/-- C3: the average-order-value views compute, per group, the mean of
per-order revenue sums restricted to that group (the spec formulations
`specAovByCategory` / `specAovByRegion`), not total group revenue divided
by the global order count in one step.  Conjuncts: the general membership
statement for any category and any region of any table; the spec's
two-row Books example (10×2 and 30×1) yields exactly 25; and on the
mixed table `exMixed` the naive quotient "Books revenue / global distinct
order count" (50/3) differs from the view's Books value 25. -/
theorem c3_aov_is_mean_of_per_order_sums (df : List CleanRow) (c g : String)
    (hc : c ∈ df.map (fun r => r.category)) (hg : g ∈ df.map (fun r => r.region)) :
    ({ key := c, averageOrderValue := specAovByCategory df c } : AovEntry)
        ∈ aovByCategory df
      ∧ ({ key := g, averageOrderValue := specAovByRegion df g } : AovEntry)
        ∈ aovByRegion df
      ∧ aovByCategory exBooks = [{ key := "Books", averageOrderValue := 25 }]
      ∧ specAovByCategory exMixed "Books" = 25
      ∧ sumOpt ((exMixed.filter (fun r => r.category == "Books")).map (fun r => r.revenue))
          / ((dedup (exMixed.map (fun r => r.orderId))).length : ℚ) ≠ 25 := by
  refine ⟨?_, ?_, by with_unfolding_all decide, by with_unfolding_all decide,
    by with_unfolding_all decide⟩
  · unfold aovByCategory
    refine (sortBy_perm _ _).mem_iff.2 ?_
    rw [← perOrderCatSums_eq_spec]
    exact List.mem_map_of_mem _ (mem_dedup.2 hc)
  · unfold aovByRegion
    refine (sortBy_perm _ _).mem_iff.2 ?_
    rw [← perOrderRegionSums_eq_spec]
    exact List.mem_map_of_mem _ (mem_dedup.2 hg)

/-- C3 witness: the Books entry of the AOV-by-category view of `exMixed`
carries the spec value. -/
theorem c3_witness :
    ({ key := "Books", averageOrderValue := specAovByCategory exMixed "Books" } : AovEntry)
      ∈ aovByCategory exMixed :=
  (c3_aov_is_mean_of_per_order_sums exMixed "Books" "Europe"
    (by with_unfolding_all decide) (by with_unfolding_all decide)).1

/-- C7: imputation fills a missing price with the median price of the
same-category rows of the post-deduplication table, present values only
(`specMedianPrice`); fills a missing quantity with 1 and a missing region
with "Unknown"; and afterwards recomputes revenue = price · quantity for
every row of the table, not only the imputed ones.  The closed conjunct
evaluates `clean` on `rawC7ex`: the duplicate is removed before the median
is taken (Books median = 7, the median of [4, 10], not of [4, 4, 10]), the
missing price becomes 7, and the wrong raw revenue 999 of the untouched O1
row is overwritten by 4·2 = 8. -/
theorem c7_imputation_semantics (d : List RawRow) (r : RawRow) (m : MidRow)
    (_hr : r ∈ d) (hm : m ∈ d.map (imputeRow (mediansOf d))) :
    (imputeRow (mediansOf d) r).price
        = (match r.price with
           | some v => some v
           | none => specMedianPrice d r.category)
      ∧ (imputeRow (mediansOf d) r).quantity = r.quantity.getD 1
      ∧ (imputeRow (mediansOf d) r).region = r.region.getD "Unknown"
      ∧ m.revenue = m.price.map (fun p => p * (m.quantity : ℚ))
      ∧ (clean dsZero rawC7ex).map (fun r => (r.orderId, r.price, r.revenue))
          = [("O1", some 4, some 8), ("O2", some 10, some 10), ("O3", some 7, some 7)] := by
  refine ⟨?_, rfl, rfl, ?_, by with_unfolding_all decide⟩
  · show imputePrice (mediansOf d) r = _
    unfold imputePrice
    cases hp : r.price with
    | some v => simp
    | none => simp [mediansOf_eq_spec]
  · rcases List.mem_map.1 hm with ⟨r0, _, rfl⟩
    simp [imputeRow]

/-- C7 witness: the missing O3 price of `rawC7ex` is filled with the
spec-side Books median. -/
theorem c7_witness :
    (imputeRow (mediansOf rawC7ex) (mkRawRow "O3" "Books" (some 1) none)).price
      = (match (mkRawRow "O3" "Books" (some 1) none).price with
         | some v => some v
         | none => specMedianPrice rawC7ex (mkRawRow "O3" "Books" (some 1) none).category) :=
  (c7_imputation_semantics rawC7ex (mkRawRow "O3" "Books" (some 1) none)
    (imputeRow (mediansOf rawC7ex) (mkRawRow "O3" "Books" (some 1) none))
    (by with_unfolding_all decide) (by with_unfolding_all decide)).1

/-- C10: if after deduplication every row of some category has a missing
price, that category's median is undefined (`NaN`, here `none`), the
imputation leaves those prices — and hence the recomputed revenues —
missing, and the positivity filter then silently drops every row of the
category: the cleaning stage raises no error (it is a total function) and
simply returns a table in which the category no longer occurs. -/
theorem c10_all_missing_price_category_vanishes (ds : Date → Int)
    (raw : List RawRow) (c : String)
    (hall : ∀ r0 ∈ dedup raw, r0.category = c → r0.price = none) :
    (∀ r ∈ clean ds raw, r.category ≠ c)
      ∧ mediansOf (dedup raw) c = none := by
  have hmed : mediansOf (dedup raw) c = none := by
    unfold mediansOf
    have hnil : ((dedup raw).filter (fun r => r.category == c)).filterMap
        (fun r => r.price) = [] := by
      rw [List.filterMap_eq_nil_iff]
      intro r0 hr0
      have h1 := List.mem_filter.1 hr0
      exact hall r0 h1.1 (by simpa using h1.2)
    rw [hnil]
    rfl
  refine ⟨?_, hmed⟩
  intro r hr hcat
  rcases mem_clean_decompose hr with ⟨r0, hr0, hre, hv⟩
  obtain ⟨p, hp, -⟩ := optPos_iff.1 (validRow_parts hv).1
  have hcat0 : r0.category = c := by
    rw [hre] at hcat
    simpa [deriveRow, imputeRow] using hcat
  have hp0 : r0.price = none := hall r0 hr0 hcat0
  rw [hre] at hp
  simp only [deriveRow, imputeRow] at hp
  simp only [imputePrice, hp0, hcat0] at hp
  rw [hmed] at hp
  exact Option.noConfusion hp

/-- C10 witness: the all-missing-price category "Ghost" of `rawGhost`
vanishes from the cleaned output without an error. -/
theorem c10_witness :
    (∀ r ∈ clean dsZero rawGhost, r.category ≠ "Ghost")
      ∧ mediansOf (dedup rawGhost) "Ghost" = none :=
  c10_all_missing_price_category_vanishes dsZero rawGhost "Ghost"
    (by with_unfolding_all decide)

/-- C8 counterexample: re-cleaning is NOT row-count- and revenue-sum-
preserving for every input.  On `rawIdem` (two rows identical except that
one price is missing) the first cleaning imputes the missing Books price
with the category median 10, which makes the two cleaned rows exact
duplicates: the first output has 2 rows and revenue sum 40, but cleaning
that output again deduplicates them, leaving 1 row and revenue sum 20. -/
theorem c8_counterexample :
    (clean dsZero rawIdem).length = 2
      ∧ sumOpt ((clean dsZero rawIdem).map (fun r => r.revenue)) = 40
      ∧ (clean dsZero ((clean dsZero rawIdem).map toRaw)).length = 1
      ∧ sumOpt ((clean dsZero ((clean dsZero rawIdem).map toRaw)).map (fun r => r.revenue)) = 20
      ∧ ¬((clean dsZero ((clean dsZero rawIdem).map toRaw)).length
            = (clean dsZero rawIdem).length) := by
  with_unfolding_all decide

/-- C8 (amended): provided the cleaned output contains no two identical
rows (imputation can manufacture duplicates, as `c8_counterexample` shows)
and none of its rows is a price outlier with respect to the cleaned
output's own per-category statistics (one trimming pass can expose new
outliers), re-running the cleaning stage on its own output — with an
arbitrary later clock — reproduces the table except for the recomputed
time-dependent `DaysSinceOrder` column; in particular the row count and
the revenue sum are unchanged. -/
theorem c8_reclean_roundtrip (ds ds2 : Date → Int) (raw : List RawRow)
    (hnd : ((clean ds raw).map toRaw).Nodup)
    (hno : ∀ r ∈ clean ds raw,
      rowOutlier r (catPrices (clean ds raw) r.category) = false) :
    clean ds2 ((clean ds raw).map toRaw)
        = (clean ds raw).map (fun r => { r with daysSinceOrder := ds2 r.orderDate })
      ∧ (clean ds2 ((clean ds raw).map toRaw)).length = (clean ds raw).length
      ∧ sumOpt ((clean ds2 ((clean ds raw).map toRaw)).map (fun r => r.revenue))
          = sumOpt ((clean ds raw).map (fun r => r.revenue)) := by
  set C := clean ds raw with hC
  have hvalid : ∀ r ∈ C, validRow r = true := by
    intro r hr
    rcases mem_clean_decompose hr with ⟨_, _, _, hv⟩
    exact hv
  have hmain : clean ds2 (C.map toRaw)
      = C.map (fun r => { r with daysSinceOrder := ds2 r.orderDate }) := by
    simp only [clean]
    rw [dedup_eq_self hnd]
    rw [List.map_map, List.map_map]
    have hmap : C.map ((deriveRow ds2 ∘ imputeRow (mediansOf (C.map toRaw))) ∘ toRaw)
        = C.map (fun r => { r with daysSinceOrder := ds2 r.orderDate }) := by
      apply List.map_congr_left
      intro r hr
      exact reclean_row ds ds2 raw r (hC ▸ hr) _
    rw [hmap]
    have hfilter : (C.map (fun r => { r with daysSinceOrder := ds2 r.orderDate })).filter
        validRow = C.map (fun r => { r with daysSinceOrder := ds2 r.orderDate }) := by
      rw [List.filter_eq_self]
      intro x hx
      rcases List.mem_map.1 hx with ⟨r, hr, rfl⟩
      have hv := hvalid r hr
      simpa [validRow, optPos] using hv
    rw [hfilter]
    rw [outlierStep_eq_filter]
    rw [List.filter_eq_self]
    intro x hx
    rcases List.mem_map.1 hx with ⟨r, hr, rfl⟩
    rw [catPrices_map_upd]
    have hor := hno r hr
    simpa [rowOutlier] using hor
  refine ⟨hmain, ?_, ?_⟩
  · rw [hmain, List.length_map]
  · rw [hmain]
    congr 1
    rw [List.map_map]
    rfl

/-- C8 witness: on the duplicate-free, outlier-free `rawIdW` the round
trip preserves the table up to `DaysSinceOrder`. -/
theorem c8_witness :
    clean dsOne ((clean dsZero rawIdW).map toRaw)
        = (clean dsZero rawIdW).map (fun r => { r with daysSinceOrder := dsOne r.orderDate })
      ∧ (clean dsOne ((clean dsZero rawIdW).map toRaw)).length = (clean dsZero rawIdW).length
      ∧ sumOpt ((clean dsOne ((clean dsZero rawIdW).map toRaw)).map (fun r => r.revenue))
          = sumOpt ((clean dsZero rawIdW).map (fun r => r.revenue)) :=
  c8_reclean_roundtrip dsZero dsOne rawIdW (by with_unfolding_all decide)
    (by with_unfolding_all decide)

/-- Under the C9 hypotheses the sum of per-group revenue totals is
positive (hence nonzero), for any grouping key. -/
theorem grouped_revenue_sum_pos (df : List CleanRow) (key : CleanRow → String)
    (hne : df ≠ []) (hpos : ∀ r ∈ df, ∃ v, r.revenue = some v ∧ 0 < v) :
    0 < ((dedup (df.map key)).map
      (fun c => sumOpt ((df.filter (fun r => key r == c)).map (fun r => r.revenue)))).sum := by
  have hmap : ∀ c, sumOpt ((df.filter (fun r => key r == c)).map (fun r => r.revenue))
      = ((df.filter (fun r => key r == c)).map (fun r => r.revenue.getD 0)).sum := by
    intro c
    rw [sumOpt_all_some]
    · rw [List.map_map]
      rfl
    · intro a ha
      rcases List.mem_map.1 ha with ⟨r, hr, rfl⟩
      rcases hpos r (List.mem_filter.1 hr).1 with ⟨v, hv, -⟩
      simp [hv]
  have h1 : ((dedup (df.map key)).map
      (fun c => sumOpt ((df.filter (fun r => key r == c)).map (fun r => r.revenue)))).sum
      = ((dedup (df.map key)).map
        (fun c => ((df.filter (fun r => key r == c)).map (fun r => r.revenue.getD 0)).sum)).sum := by
    congr 1
    exact List.map_congr_left (fun c _ => hmap c)
  rw [h1, sum_grouped key (fun r => r.revenue.getD 0) (dedup (df.map key)) df
    (nodup_dedup _) (fun r hr => mem_dedup.2 (List.mem_map_of_mem _ hr))]
  apply List.sum_pos
  · intro x hx
    rcases List.mem_map.1 hx with ⟨r, hr, rfl⟩
    rcases hpos r hr with ⟨v, hv, hv0⟩
    simp [hv, hv0]
  · simpa using hne

/-- C9: for every non-empty table of positive revenues (which every
non-empty cleaned table is), the `RevenuePercentage` columns of the
category rollup and of the regional rollup each sum to 100 up to the
rounding slack of one half-cent per group row (`length/200`, each
percentage being rounded to 2 decimals). -/
theorem c9_rollup_percentages_sum_100 (df : List CleanRow)
    (hne : df ≠ [])
    (hpos : ∀ r ∈ df, ∃ v, r.revenue = some v ∧ 0 < v) :
    |((categoryRollup df).map (fun e => e.revenuePercentage)).sum - 100|
        ≤ ((categoryRollup df).length : ℚ) / 200
      ∧ |((regionalAnalysis df).map (fun e => e.revenuePercentage)).sum - 100|
        ≤ ((regionalAnalysis df).length : ℚ) / 200 := by
  constructor
  · simp only [categoryRollup]
    set base := (dedup (df.map (fun r => r.category))).map (catAggBase df) with hbase
    set total := (base.map (fun e => e.totalRevenue)).sum with htot
    clear_value total
    clear_value base
    have hvals : base.map (fun e => e.totalRevenue)
        = (dedup (df.map (fun r => r.category))).map
            (fun c => sumOpt ((df.filter (fun r => r.category == c)).map
              (fun r => r.revenue))) := by
      rw [hbase, List.map_map]
      apply List.map_congr_left
      intro c _
      simp [catAggBase]
    have hT : total ≠ 0 := by
      rw [htot, hvals]
      exact ne_of_gt (grouped_revenue_sum_pos df (fun r => r.category) hne hpos)
    have hperm := sortBy_perm (fun a b => decide (b.totalRevenue ≤ a.totalRevenue))
      (base.map (fun e =>
        { e with revenuePercentage := round2 (e.totalRevenue / total * 100) }))
    rw [(hperm.map (fun e => e.revenuePercentage)).sum_eq, hperm.length_eq]
    have h2 : (base.map (fun e =>
          { e with revenuePercentage := round2 (e.totalRevenue / total * 100) })).map
        (fun e => e.revenuePercentage)
        = (base.map (fun e => e.totalRevenue)).map (fun v => round2 (v / total * 100)) := by
      rw [List.map_map, List.map_map]
      rfl
    rw [h2, List.length_map]
    have hb := sum_round2_shares (base.map (fun e => e.totalRevenue)) (htot ▸ hT)
    rw [← htot, List.length_map] at hb
    calc |((base.map (fun e => e.totalRevenue)).map
            (fun v => round2 (v / total * 100))).sum - 100|
        ≤ (base.length : ℚ) * (1/200) := hb
      _ = (base.length : ℚ) / 200 := by ring
  · simp only [regionalAnalysis]
    set base := (dedup (df.map (fun r => r.region))).map (regionAggBase df) with hbase
    set total := (base.map (fun e => e.totalRevenue)).sum with htot
    clear_value total
    clear_value base
    have hvals : base.map (fun e => e.totalRevenue)
        = (dedup (df.map (fun r => r.region))).map
            (fun g => sumOpt ((df.filter (fun r => r.region == g)).map
              (fun r => r.revenue))) := by
      rw [hbase, List.map_map]
      apply List.map_congr_left
      intro g _
      simp [regionAggBase]
    have hT : total ≠ 0 := by
      rw [htot, hvals]
      exact ne_of_gt (grouped_revenue_sum_pos df (fun r => r.region) hne hpos)
    have hperm := sortBy_perm (fun a b => decide (b.totalRevenue ≤ a.totalRevenue))
      (base.map (fun e =>
        { e with revenuePercentage := round2 (e.totalRevenue / total * 100) }))
    rw [(hperm.map (fun e => e.revenuePercentage)).sum_eq, hperm.length_eq]
    have h2 : (base.map (fun e =>
          { e with revenuePercentage := round2 (e.totalRevenue / total * 100) })).map
        (fun e => e.revenuePercentage)
        = (base.map (fun e => e.totalRevenue)).map (fun v => round2 (v / total * 100)) := by
      rw [List.map_map, List.map_map]
      rfl
    rw [h2, List.length_map]
    have hb := sum_round2_shares (base.map (fun e => e.totalRevenue)) (htot ▸ hT)
    rw [← htot, List.length_map] at hb
    calc |((base.map (fun e => e.totalRevenue)).map
            (fun v => round2 (v / total * 100))).sum - 100|
        ≤ (base.length : ℚ) * (1/200) := hb
      _ = (base.length : ℚ) / 200 := by ring

/-- C9 witness: the bound holds on the concrete two-category table `df9`
(where the percentages are in fact exactly 33.33 + 66.67 = 100). -/
theorem c9_witness :
    |((categoryRollup df9).map (fun e => e.revenuePercentage)).sum - 100|
        ≤ ((categoryRollup df9).length : ℚ) / 200
      ∧ |((regionalAnalysis df9).map (fun e => e.revenuePercentage)).sum - 100|
        ≤ ((regionalAnalysis df9).length : ℚ) / 200 :=
  c9_rollup_percentages_sum_100 df9 (by with_unfolding_all decide)
    (by with_unfolding_all decide)

end ECom
